import Mathlib

/-!
Verification development for the ConfigILM throughput-testing notebook
(docs/throughput_testing.ipynb). The notebook wraps a vision+text model in a
pytorch-lightning module (LitVQAEncoder) and benchmarks it against a synthetic
dataset (ThroughputTestDataset via ThroughputTest_DataModule) that repeats a
single dummy sample.

Tensors are shallow-embedded as nested lists of rationals (images, logits,
labels) and integers (token ids); floating point is modelled by the exact
rationals. External framework functions (the inner ConfigILM model and
torch.nn.functional.binary_cross_entropy_with_logits) are parameters of the
embedding, since they are owned by external libraries.
-/

namespace ConfigILMSpec

/-- A one-dimensional tensor of rationals (a label or logit vector). -/
abbrev Vec := List ℚ

/-- A two-dimensional tensor of rationals (a batch of vectors). -/
abbrev Mat := List Vec

/-- A three-dimensional image tensor: channels by height by width. -/
abbrev Img := List (List (List ℚ))

/-- A token-id sequence for one sample. -/
abbrev TokenSeq := List ℤ

/-- A two-dimensional tensor of token ids. -/
abbrev TokenMat := List (List ℤ)

/-- One sample triple as produced by the synthetic dataset: image tensor,
token-id sequence and label vector. -/
structure Sample where
  img : Img
  tokens : TokenSeq
  label : Vec
deriving DecidableEq, Repr

/-- Modelled from the spec: the class `ThroughputTestDataset` of
`configilm.extra` is not under src/ (the notebook only imports and calls its
DataModule). Per the spec it manufactures one fixed dummy sample during
initialization from the configured shape parameters and exposes a fake
length `num_samples` over it. -/
structure ThroughputTestDataset where
  num_samples : ℕ
  sample : Sample
deriving DecidableEq, Repr

/-- Modelled from the spec: the single dummy sample, generated once at dataset
initialization from the configured shape parameters (image of shape
channels by image_size by image_size, token sequence of length seq_length,
label vector of length classes). -/
def mkDummySample (channels image_size seq_length classes : ℕ) : Sample :=
  { img := List.replicate channels (List.replicate image_size (List.replicate image_size (1 : ℚ)))
    tokens := List.replicate seq_length (0 : ℤ)
    label := List.replicate classes (0 : ℚ) }

/-- Modelled from the spec: dataset construction, storing the configured fake
length and the dummy sample generated at initialization. -/
def ThroughputTestDataset.ofParams (channels image_size seq_length classes num_samples : ℕ) :
    ThroughputTestDataset :=
  { num_samples := num_samples
    sample := mkDummySample channels image_size seq_length classes }

/-- Modelled from the spec: indexed access ignores the index and returns the
sample generated at initialization. -/
def ThroughputTestDataset.getitem (d : ThroughputTestDataset) (i : ℕ) : Sample :=
  d.sample

/-- Modelled from the spec: the length of the dataset is the configured
`num_samples`. -/
def ThroughputTestDataset.len (d : ThroughputTestDataset) : ℕ :=
  d.num_samples

/-- The sequence of samples produced by iterating the dataset in index order,
as a data loader does. -/
def ThroughputTestDataset.samples (d : ThroughputTestDataset) : List Sample :=
  (List.range d.len).map d.getitem

/-- Modelled from the spec: sequential batch collation of a data loader with a
given batch size, grouping consecutive elements into chunks of `bs` with a
possibly shorter final chunk. -/
def chunkList (bs : ℕ) (l : List Sample) : List (List Sample) :=
  if h : 0 < bs ∧ l ≠ [] then
    l.take bs :: chunkList bs (l.drop bs)
  else []
termination_by l.length
decreasing_by
  simp only [List.length_drop]
  exact Nat.sub_lt (List.length_pos.mpr h.2) h.1

/-- Modelled from the spec: the batches delivered by the DataModule's loader
over the synthetic dataset. -/
def dataloaderBatches (d : ThroughputTestDataset) (batch_size : ℕ) : List (List Sample) :=
  chunkList batch_size d.samples

theorem chunkList_sum_length (bs : ℕ) (hbs : 0 < bs) (l : List Sample) :
    ((chunkList bs l).map List.length).sum = l.length := by
  induction l using chunkList.induct bs with
  | case1 l h ih =>
    rw [chunkList, dif_pos h]
    simp only [List.map_cons, List.sum_cons, ih, List.length_take, List.length_drop]
    omega
  | case2 l h =>
    rw [chunkList, dif_neg h]
    have hl : l = [] := by
      rcases not_and_or.mp h with h1 | h2
      · omega
      · exact not_not.mp h2
    simp [hl]

theorem chunkList_le (bs : ℕ) (l : List Sample) :
    ∀ c ∈ chunkList bs l, c.length ≤ bs := by
  induction l using chunkList.induct bs with
  | case1 l h ih =>
    rw [chunkList, dif_pos h]
    intro c hc
    rcases List.mem_cons.mp hc with hc1 | hc2
    · subst hc1
      rw [List.length_take]
      exact min_le_left _ _
    · exact ih c hc2
  | case2 l h =>
    rw [chunkList, dif_neg h]
    intro c hc
    simp at hc

theorem chunkList_dropLast_full (bs : ℕ) (l : List Sample) :
    ∀ c ∈ (chunkList bs l).dropLast, c.length = bs := by
  induction l using chunkList.induct bs with
  | case1 l h ih =>
    rw [chunkList, dif_pos h]
    intro c hc
    rcases hrest : chunkList bs (l.drop bs) with _ | ⟨r, rs⟩
    · rw [hrest] at hc
      simp at hc
    · rw [hrest] at hc
      rw [List.dropLast_cons_of_ne_nil (by simp)] at hc
      rcases List.mem_cons.mp hc with hc1 | hc2
      · subst hc1
        have hne : l.drop bs ≠ [] := by
          intro habs
          rw [habs] at hrest
          rw [chunkList, dif_neg (by simp)] at hrest
          exact List.noConfusion hrest
        have hlen : bs < l.length := by
          have := List.length_pos.mpr hne
          rw [List.length_drop] at this
          omega
        rw [List.length_take]
        omega
      · exact ih c (by rw [hrest]; exact hc2)
  | case2 l h =>
    rw [chunkList, dif_neg h]
    intro c hc
    simp at hc

/-- C1: for every index i with 0 <= i < num_samples, indexed access on the
synthetic dataset returns a sample identical to the single dummy sample
generated at dataset initialization (same image tensor, same token-id
sequence, same label vector), independent of i. -/
theorem getitem_returns_init_sample (channels image_size seq_length classes num_samples i j : ℕ)
    (hi : i < (ThroughputTestDataset.ofParams channels image_size seq_length classes num_samples).len)
    (hj : j < (ThroughputTestDataset.ofParams channels image_size seq_length classes num_samples).len) :
    ((ThroughputTestDataset.ofParams channels image_size seq_length classes num_samples).getitem i).img
      = (mkDummySample channels image_size seq_length classes).img ∧
    ((ThroughputTestDataset.ofParams channels image_size seq_length classes num_samples).getitem i).tokens
      = (mkDummySample channels image_size seq_length classes).tokens ∧
    ((ThroughputTestDataset.ofParams channels image_size seq_length classes num_samples).getitem i).label
      = (mkDummySample channels image_size seq_length classes).label ∧
    (ThroughputTestDataset.ofParams channels image_size seq_length classes num_samples).getitem i
      = (ThroughputTestDataset.ofParams channels image_size seq_length classes num_samples).getitem j :=
  ⟨rfl, rfl, rfl, rfl⟩

/-- Witness for C1 at a concrete configuration and index pair. -/
theorem getitem_returns_init_sample_witness :
    (0 : ℕ) < (ThroughputTestDataset.ofParams 2 3 4 5 6).len ∧
    (5 : ℕ) < (ThroughputTestDataset.ofParams 2 3 4 5 6).len ∧
    (((ThroughputTestDataset.ofParams 2 3 4 5 6).getitem 0).img
        = (mkDummySample 2 3 4 5).img ∧
      ((ThroughputTestDataset.ofParams 2 3 4 5 6).getitem 0).tokens
        = (mkDummySample 2 3 4 5).tokens ∧
      ((ThroughputTestDataset.ofParams 2 3 4 5 6).getitem 0).label
        = (mkDummySample 2 3 4 5).label ∧
      (ThroughputTestDataset.ofParams 2 3 4 5 6).getitem 0
        = (ThroughputTestDataset.ofParams 2 3 4 5 6).getitem 5) :=
  ⟨by decide, by decide,
    getitem_returns_init_sample 2 3 4 5 6 0 5 (by decide) (by decide)⟩

/-- C2: the length of the synthetic dataset equals the configured
`num_samples` exactly, for every non-negative `num_samples`; for
`num_samples = 0` the dataset is a well-defined empty dataset (its sample
list is empty) rather than undefined behaviour. -/
theorem len_eq_num_samples (channels image_size seq_length classes num_samples : ℕ) :
    (ThroughputTestDataset.ofParams channels image_size seq_length classes num_samples).len
      = num_samples ∧
    (ThroughputTestDataset.ofParams channels image_size seq_length classes 0).len = 0 ∧
    (ThroughputTestDataset.ofParams channels image_size seq_length classes 0).samples = [] :=
  ⟨rfl, rfl, rfl⟩

/-- C3: with a positive batch size, batched retrieval over the synthetic
dataset yields batches of exactly `batch_size` samples except possibly a
shorter final batch, and the total number of samples across all batches
equals `num_samples`. -/
theorem dataloaderBatches_spec (d : ThroughputTestDataset) (batch_size : ℕ)
    (hbs : 0 < batch_size) :
    (∀ c ∈ (dataloaderBatches d batch_size).dropLast, c.length = batch_size) ∧
    (∀ c ∈ dataloaderBatches d batch_size, c.length ≤ batch_size) ∧
    ((dataloaderBatches d batch_size).map List.length).sum = d.num_samples := by
  refine ⟨chunkList_dropLast_full batch_size d.samples,
    chunkList_le batch_size d.samples, ?_⟩
  rw [dataloaderBatches, chunkList_sum_length batch_size hbs]
  simp [ThroughputTestDataset.samples, ThroughputTestDataset.len]

/-- Witness for C3 at a concrete dataset of 7 samples and batch size 2. -/
theorem dataloaderBatches_spec_witness :
    (0 : ℕ) < 2 ∧
    ((∀ c ∈ (dataloaderBatches (ThroughputTestDataset.ofParams 1 2 3 4 7) 2).dropLast,
        c.length = 2) ∧
      (∀ c ∈ dataloaderBatches (ThroughputTestDataset.ofParams 1 2 3 4 7) 2, c.length ≤ 2) ∧
      ((dataloaderBatches (ThroughputTestDataset.ofParams 1 2 3 4 7) 2).map List.length).sum
        = (ThroughputTestDataset.ofParams 1 2 3 4 7).num_samples) :=
  ⟨by decide, dataloaderBatches_spec (ThroughputTestDataset.ofParams 1 2 3 4 7) 2 (by decide)⟩

/-- C4: every sample returned by the synthetic dataset has an image tensor of
shape (channels, image_size, image_size) and a token-id sequence of length
exactly seq_length, for every configured shape parameterisation. -/
theorem sample_shape_spec (channels image_size seq_length classes num_samples i : ℕ) :
    ((ThroughputTestDataset.ofParams channels image_size seq_length classes num_samples).getitem i).img.length
      = channels ∧
    (∀ plane ∈ ((ThroughputTestDataset.ofParams channels image_size seq_length classes num_samples).getitem i).img,
      plane.length = image_size ∧ ∀ row ∈ plane, row.length = image_size) ∧
    ((ThroughputTestDataset.ofParams channels image_size seq_length classes num_samples).getitem i).tokens.length
      = seq_length := by
  refine ⟨by simp [ThroughputTestDataset.getitem, ThroughputTestDataset.ofParams, mkDummySample], ?_,
    by simp [ThroughputTestDataset.getitem, ThroughputTestDataset.ofParams, mkDummySample]⟩
  intro plane hplane
  simp only [ThroughputTestDataset.getitem, ThroughputTestDataset.ofParams, mkDummySample] at hplane
  have hp := List.eq_of_mem_replicate hplane
  subst hp
  constructor
  · simp
  · intro row hrow
    have hr := List.eq_of_mem_replicate hrow
    subst hr
    simp

/-- The task-type tag of the configuration (ILMType in configilm). -/
inductive ILMType where
  | classification
  | vqa_classification
deriving DecidableEq, Repr

/-- The configuration record, with the fields the notebook passes to
ILMConfiguration: backbone identifiers, class count, image size, channel
count, network type and maximum text sequence length. -/
structure ILMConfiguration where
  timm_model_name : String
  hf_model_name : String
  classes : ℕ
  image_size : ℕ
  channels : ℕ
  network_type : ILMType
  max_sequence_length : ℕ
deriving DecidableEq, Repr

/-- The metric names the wrapper logs. -/
inductive MetricName where
  | train_loss
  | val_loss
  | test_loss
deriving DecidableEq, Repr

/-- One entry of the per-epoch aggregation buffers, as appended by
validation_step and test_step: the dict with keys loss, outputs, labels. -/
structure StepOut where
  loss : ℚ
  outputs : Mat
  labels : Mat
deriving DecidableEq, Repr

/-- The value a step hook returns to the trainer: training_step returns the
dict with the loss entry, validation_step and test_step return None (a Python
function without a return statement returns None). -/
inductive StepReturn where
  | lossDict (loss : ℚ)
  | noneVal
deriving DecidableEq, Repr

/-- The optimizer object returned by configure_optimizers: AdamW over the
module parameters with the configured learning rate and weight decay. -/
structure AdamW where
  lr : ℚ
  weight_decay : ℚ
deriving DecidableEq, Repr

/-- A batch as delivered by the loader: images collated to
a list of per-sample image tensors, token ids collated transposed to shape
seq_len by batch, and labels collated to batch by classes. -/
abbrev Batch := List Img × TokenMat × Mat

/-- The lightning wrapper LitVQAEncoder: learning rate, the stored
configuration, the inner model (a function from (images, token ids) to
logits, external since ConfigILM.ConfigILM lives outside this fragment),
the two per-epoch output buffers, and the log of metrics reported so far
(the effect of self.log). -/
structure LitVQAEncoder where
  lr : ℚ
  config : ILMConfiguration
  model : List Img × TokenMat → Mat
  val_output_list : List StepOut
  test_output_list : List StepOut
  logged : List (MetricName × ℚ)

/-- LitVQAEncoder.__init__: stores lr and the configuration (by reference),
builds the inner model from the configuration, and creates the two empty
output buffers. `mkModel` stands for the external ConfigILM.ConfigILM
constructor. -/
def LitVQAEncoder.init_wrapper (mkModel : ILMConfiguration → (List Img × TokenMat → Mat))
    (config : ILMConfiguration) (lr : ℚ) : LitVQAEncoder :=
  { lr := lr
    config := config
    model := mkModel config
    val_output_list := []
    test_output_list := []
    logged := [] }

/-- The effect of self.log: record one (name, value) metric. -/
def LitVQAEncoder.logMetric (m : LitVQAEncoder) (name : MetricName) (value : ℚ) :
    LitVQAEncoder :=
  { m with logged := m.logged ++ [(name, value)] }

/-- The transpose performed by torch.tensor([x.tolist() for x in questions]).T
on a rectangular seq_len by batch nested list: entry (b, s) of the result is
entry (s, b) of the input. The .int() cast is the identity here because token
ids are already modelled as integers. -/
def tensorT (q : TokenMat) : TokenMat :=
  (List.range (q.headD []).length).map (fun b => q.map (fun row => row.getD b 0))

/-- LitVQAEncoder._disassemble_batch: splits the batch triple, transposes the
token-id collation, and regroups as ((images, questions), labels). -/
def LitVQAEncoder.disassemble_batch (m : LitVQAEncoder) (batch : Batch) :
    (List Img × TokenMat) × Mat :=
  let (images, questions, labels) := batch
  ((images, tensorT questions), labels)

/-- LitVQAEncoder.training_step: disassembles the batch, runs the model,
computes the bce-with-logits loss (F_bce stands for the external
torch.nn.functional.binary_cross_entropy_with_logits), logs it under
train/loss and returns the dict with the loss. -/
def LitVQAEncoder.training_step (F_bce : Mat → Mat → ℚ) (m : LitVQAEncoder)
    (batch : Batch) (batch_idx : ℕ) : StepReturn × LitVQAEncoder :=
  let (x, y) := m.disassemble_batch batch
  let x_hat := m.model x
  let loss := F_bce x_hat y
  (StepReturn.lossDict loss, m.logMetric MetricName.train_loss loss)

/-- LitVQAEncoder.configure_optimizers: AdamW over the parameters with the
stored lr and weight_decay 0.01. -/
def LitVQAEncoder.configure_optimizers (m : LitVQAEncoder) : AdamW :=
  { lr := m.lr, weight_decay := 1 / 100 }

/-- LitVQAEncoder.validation_step: computes the loss like training_step but
returns None, appending the (loss, outputs, labels) dict to
val_output_list instead. -/
def LitVQAEncoder.validation_step (F_bce : Mat → Mat → ℚ) (m : LitVQAEncoder)
    (batch : Batch) (batch_idx : ℕ) : StepReturn × LitVQAEncoder :=
  let (x, y) := m.disassemble_batch batch
  let x_hat := m.model x
  let loss := F_bce x_hat y
  (StepReturn.noneVal,
    { m with val_output_list := m.val_output_list ++ [⟨loss, x_hat, y⟩] })

/-- LitVQAEncoder.on_validation_epoch_start: resets val_output_list to the
empty list. -/
def LitVQAEncoder.on_validation_epoch_start (m : LitVQAEncoder) : LitVQAEncoder :=
  { m with val_output_list := [] }

/-- The value of torch.stack(xs).mean() over a list of scalar losses: the
unweighted arithmetic mean, undefined (a raised RuntimeError, modelled as
none) when the list is empty because torch.stack requires a non-empty
sequence. -/
def stackMean (l : List ℚ) : Option ℚ :=
  match l with
  | [] => none
  | _ => some (l.sum / (l.length : ℚ))

/-- LitVQAEncoder.on_validation_epoch_end: averages the losses collected in
val_output_list via torch.stack(...).mean() and logs the result under
val/loss. The buffer itself is not modified here. Returns none when the
stack raises on an empty buffer. -/
def LitVQAEncoder.on_validation_epoch_end (m : LitVQAEncoder) : Option LitVQAEncoder :=
  match stackMean (m.val_output_list.map StepOut.loss) with
  | none => none
  | some avg => some (m.logMetric MetricName.val_loss avg)

/-- LitVQAEncoder.test_step: identical to validation_step but appending to
test_output_list. -/
def LitVQAEncoder.test_step (F_bce : Mat → Mat → ℚ) (m : LitVQAEncoder)
    (batch : Batch) (batch_idx : ℕ) : StepReturn × LitVQAEncoder :=
  let (x, y) := m.disassemble_batch batch
  let x_hat := m.model x
  let loss := F_bce x_hat y
  (StepReturn.noneVal,
    { m with test_output_list := m.test_output_list ++ [⟨loss, x_hat, y⟩] })

/-- LitVQAEncoder.on_test_epoch_start: resets test_output_list to the empty
list. -/
def LitVQAEncoder.on_test_epoch_start (m : LitVQAEncoder) : LitVQAEncoder :=
  { m with test_output_list := [] }

/-- LitVQAEncoder.on_test_epoch_end: averages the losses collected in
test_output_list and logs the result under test/loss. -/
def LitVQAEncoder.on_test_epoch_end (m : LitVQAEncoder) : Option LitVQAEncoder :=
  match stackMean (m.test_output_list.map StepOut.loss) with
  | none => none
  | some avg => some (m.logMetric MetricName.test_loss avg)

/-- LitVQAEncoder.forward: delegates to the inner model. -/
def LitVQAEncoder.forward (m : LitVQAEncoder) (batch : List Img × TokenMat) : Mat :=
  m.model batch

/-- Discriminator on step return values: true exactly on the loss dict. -/
def StepReturn.isLossDict : StepReturn → Bool
  | .lossDict _ => true
  | .noneVal => false

/-- A concrete configuration with the shape parameters the notebook uses
(scaled down). -/
def cfg0 : ILMConfiguration :=
  { timm_model_name := "resnet18"
    hf_model_name := "prajjwal1/bert-tiny"
    classes := 2
    image_size := 2
    channels := 1
    network_type := ILMType.vqa_classification
    max_sequence_length := 2 }

/-- A concrete stand-in for the inner model: constant logits per sample. -/
def model0 : List Img × TokenMat → Mat :=
  fun p => p.1.map (fun _ => [0, 0])

/-- A concrete stand-in for the external bce-with-logits loss. -/
def F0 : Mat → Mat → ℚ :=
  fun _ _ => 1

/-- A concrete freshly initialized wrapper. -/
def m0 : LitVQAEncoder :=
  LitVQAEncoder.init_wrapper (fun _ => model0) cfg0 (1 / 2000)

/-- A concrete collated image batch: one sample, one channel, 2 by 2. -/
def images0 : List Img := [[[[1, 0], [0, 1]]]]

/-- A concrete collated token batch in transposed layout: seq_len 2, batch 1. -/
def questions0 : TokenMat := [[3], [4]]

/-- A concrete collated label batch: batch 1, classes 2. -/
def labels0 : Mat := [[1, 0]]

/-- A concrete loader batch. -/
def batch0 : Batch := (images0, questions0, labels0)

/-- The wrapper after one validation step on the concrete batch. -/
def mFullv : LitVQAEncoder := (m0.validation_step F0 batch0 0).2

/-- The wrapper after one test step on the concrete batch. -/
def mFullt : LitVQAEncoder := (m0.test_step F0 batch0 0).2

/-- C5: the configuration is stored by reference at construction and no
operation of the wrapper (training_step, validation_step, test_step, the
epoch hooks, forward, configure_optimizers) mutates any field of the stored
configuration; forward and configure_optimizers do not touch the state at
all, so the step and hook transitions are listed. -/
theorem config_never_mutated (F_bce : Mat → Mat → ℚ)
    (mkModel : ILMConfiguration → (List Img × TokenMat → Mat))
    (config : ILMConfiguration) (lr : ℚ)
    (m : LitVQAEncoder) (batch : Batch) (batch_idx : ℕ) :
    (LitVQAEncoder.init_wrapper mkModel config lr).config = config ∧
    (m.training_step F_bce batch batch_idx).2.config = m.config ∧
    (m.validation_step F_bce batch batch_idx).2.config = m.config ∧
    (m.test_step F_bce batch batch_idx).2.config = m.config ∧
    m.on_validation_epoch_start.config = m.config ∧
    m.on_test_epoch_start.config = m.config ∧
    (∀ m2, m.on_validation_epoch_end = some m2 → m2.config = m.config) ∧
    (∀ m2, m.on_test_epoch_end = some m2 → m2.config = m.config) := by
  refine ⟨rfl, rfl, rfl, rfl, rfl, rfl, ?_, ?_⟩
  · intro m2 h
    rw [LitVQAEncoder.on_validation_epoch_end] at h
    rcases hs : stackMean (m.val_output_list.map StepOut.loss) with _ | avg
    · rw [hs] at h
      exact Option.noConfusion h
    · rw [hs] at h
      have h2 := Option.some.inj h
      rw [← h2]
      rfl
  · intro m2 h
    rw [LitVQAEncoder.on_test_epoch_end] at h
    rcases hs : stackMean (m.test_output_list.map StepOut.loss) with _ | avg
    · rw [hs] at h
      exact Option.noConfusion h
    · rw [hs] at h
      have h2 := Option.some.inj h
      rw [← h2]
      rfl

/-- Witness for C5 at concrete inputs. -/
theorem config_never_mutated_witness :
    (LitVQAEncoder.init_wrapper (fun _ => model0) cfg0 (1 / 2000)).config = cfg0 ∧
    (m0.training_step F0 batch0 0).2.config = m0.config ∧
    (m0.validation_step F0 batch0 0).2.config = m0.config ∧
    (m0.test_step F0 batch0 0).2.config = m0.config ∧
    m0.on_validation_epoch_start.config = m0.config ∧
    m0.on_test_epoch_start.config = m0.config ∧
    (∀ m2, m0.on_validation_epoch_end = some m2 → m2.config = m0.config) ∧
    (∀ m2, m0.on_test_epoch_end = some m2 → m2.config = m0.config) :=
  config_never_mutated F0 (fun _ => model0) cfg0 (1 / 2000) m0 batch0 0

/-- C6 counterexample: after the epoch-end hook runs, the validation buffer
still holds the entry collected during that epoch, contradicting the claim
that it holds no entries from that epoch once the hook has run. -/
theorem buffers_counterexample :
    ∃ m2, ((m0.on_validation_epoch_start.validation_step F0 batch0 0).2.on_validation_epoch_end
        = some m2) ∧
      m2.val_output_list ≠ [] := by
  refine ⟨_, rfl, ?_⟩
  decide

/-- C6 amended: the buffers are reset to empty at epoch start, each batch step
appends exactly one entry during the epoch, and the epoch-end hook consumes
the buffer (averaging and logging) without clearing it, so the entries remain
until the next epoch start resets the buffer. -/
theorem buffers_lifecycle (F_bce : Mat → Mat → ℚ) (m : LitVQAEncoder)
    (batch : Batch) (batch_idx : ℕ) :
    m.on_validation_epoch_start.val_output_list = [] ∧
    m.on_test_epoch_start.test_output_list = [] ∧
    (m.validation_step F_bce batch batch_idx).2.val_output_list.length
      = m.val_output_list.length + 1 ∧
    (m.test_step F_bce batch batch_idx).2.test_output_list.length
      = m.test_output_list.length + 1 ∧
    (m.on_validation_epoch_start.validation_step F_bce batch batch_idx).2.val_output_list.length = 1 ∧
    (∀ m2, m.on_validation_epoch_end = some m2 → m2.val_output_list = m.val_output_list) ∧
    (∀ m2, m.on_test_epoch_end = some m2 → m2.test_output_list = m.test_output_list) := by
  refine ⟨rfl, rfl, by simp [LitVQAEncoder.validation_step],
    by simp [LitVQAEncoder.test_step],
    by simp [LitVQAEncoder.validation_step, LitVQAEncoder.on_validation_epoch_start], ?_, ?_⟩
  · intro m2 h
    rw [LitVQAEncoder.on_validation_epoch_end] at h
    rcases hs : stackMean (m.val_output_list.map StepOut.loss) with _ | avg
    · rw [hs] at h
      exact Option.noConfusion h
    · rw [hs] at h
      have h2 := Option.some.inj h
      rw [← h2]
      rfl
  · intro m2 h
    rw [LitVQAEncoder.on_test_epoch_end] at h
    rcases hs : stackMean (m.test_output_list.map StepOut.loss) with _ | avg
    · rw [hs] at h
      exact Option.noConfusion h
    · rw [hs] at h
      have h2 := Option.some.inj h
      rw [← h2]
      rfl

/-- Witness for the amended C6 at concrete inputs, also firing the epoch-end
implication at the concrete post-step state. -/
theorem buffers_lifecycle_witness :
    (m0.on_validation_epoch_start.val_output_list = [] ∧
      m0.on_test_epoch_start.test_output_list = [] ∧
      (m0.validation_step F0 batch0 0).2.val_output_list.length
        = m0.val_output_list.length + 1 ∧
      (m0.test_step F0 batch0 0).2.test_output_list.length
        = m0.test_output_list.length + 1 ∧
      (m0.on_validation_epoch_start.validation_step F0 batch0 0).2.val_output_list.length = 1 ∧
      (∀ m2, m0.on_validation_epoch_end = some m2 → m2.val_output_list = m0.val_output_list) ∧
      (∀ m2, m0.on_test_epoch_end = some m2 → m2.test_output_list = m0.test_output_list)) ∧
    (∃ m2, mFullv.on_validation_epoch_end = some m2 ∧ m2.val_output_list = mFullv.val_output_list) :=
  ⟨buffers_lifecycle F0 m0 batch0 0,
    ⟨_, rfl, ((buffers_lifecycle F0 mFullv batch0 0).2.2.2.2.2.1 _ rfl)⟩⟩

/-- C7: on a batch whose token collation is rectangular with seq_len rows of
batch-size B entries each, _disassemble_batch leaves the images and labels
unchanged, and hands the model a token matrix of shape batch by seq_len whose
entry (b, s) is entry (s, b) of the collated input (the transpose); the
entries are integers by construction. -/
theorem disassemble_batch_spec (m : LitVQAEncoder) (images : List Img)
    (questions : TokenMat) (labels : Mat) (B : ℕ)
    (hB : (questions.headD []).length = B) :
    (m.disassemble_batch (images, questions, labels)).1.1 = images ∧
    (m.disassemble_batch (images, questions, labels)).2 = labels ∧
    (m.disassemble_batch (images, questions, labels)).1.2.length = B ∧
    (∀ r ∈ (m.disassemble_batch (images, questions, labels)).1.2,
      r.length = questions.length) ∧
    (∀ b s, b < B → s < questions.length →
      ((m.disassemble_batch (images, questions, labels)).1.2.getD b []).getD s 0
        = (questions.getD s []).getD b 0) := by
  refine ⟨rfl, rfl, ?_, ?_, ?_⟩
  · show (tensorT questions).length = B
    rw [tensorT]
    simp only [List.length_map, List.length_range]
    exact hB
  · intro r hr
    simp only [LitVQAEncoder.disassemble_batch, tensorT] at hr
    rcases List.mem_map.mp hr with ⟨b, hb, hrb⟩
    rw [← hrb]
    simp
  · intro b s hb hs
    have hrow : (m.disassemble_batch (images, questions, labels)).1.2.getD b []
        = questions.map (fun row => row.getD b 0) := by
      have hlt : b < (tensorT questions).length := by
        rw [tensorT]
        simp only [List.length_map, List.length_range]
        rw [hB]
        exact hb
      rw [show (m.disassemble_batch (images, questions, labels)).1.2 = tensorT questions from rfl]
      rw [List.getD_eq_getElem _ _ hlt]
      simp [tensorT]
    rw [hrow]
    have hs2 : s < (questions.map (fun row => row.getD b 0)).length := by
      simpa using hs
    rw [List.getD_eq_getElem _ _ hs2, List.getElem_map,
      List.getD_eq_getElem _ _ hs]

/-- Witness for C7 at the concrete batch with seq_len 2 and batch size 1. -/
theorem disassemble_batch_spec_witness :
    (questions0.headD []).length = 1 ∧
    ((m0.disassemble_batch (images0, questions0, labels0)).1.1 = images0 ∧
      (m0.disassemble_batch (images0, questions0, labels0)).2 = labels0 ∧
      (m0.disassemble_batch (images0, questions0, labels0)).1.2.length = 1 ∧
      (∀ r ∈ (m0.disassemble_batch (images0, questions0, labels0)).1.2,
        r.length = questions0.length) ∧
      (∀ b s, b < 1 → s < questions0.length →
        ((m0.disassemble_batch (images0, questions0, labels0)).1.2.getD b []).getD s 0
          = (questions0.getD s []).getD b 0)) :=
  ⟨by decide, disassemble_batch_spec m0 images0 questions0 labels0 1 (by decide)⟩

/-- C8 counterexample: validation_step and test_step return None to the
trainer (they only append to the buffers), not a loss scalar, so the claim
that each of the training/validation/test step hooks returns a loss scalar
fails at this concrete batch. -/
theorem step_return_counterexample :
    (m0.validation_step F0 batch0 0).1 = StepReturn.noneVal ∧
    StepReturn.isLossDict (m0.validation_step F0 batch0 0).1 = false ∧
    (m0.test_step F0 batch0 0).1 = StepReturn.noneVal ∧
    StepReturn.isLossDict (m0.test_step F0 batch0 0).1 = false :=
  ⟨rfl, rfl, rfl, rfl⟩

/-- C8 amended: forward returns the inner model's logits on the (image,
token-sequence) pair; training_step returns the dict holding the loss scalar
computed from those logits; validation_step and test_step return None,
storing their outputs in the epoch buffers instead; configure_optimizers
returns an AdamW optimizer with the configured learning rate and weight
decay 0.01. -/
theorem model_contract (F_bce : Mat → Mat → ℚ) (m : LitVQAEncoder)
    (batch : Batch) (batch_idx : ℕ) (x : List Img × TokenMat) :
    m.forward x = m.model x ∧
    (m.training_step F_bce batch batch_idx).1
      = StepReturn.lossDict
          (F_bce (m.model (m.disassemble_batch batch).1) (m.disassemble_batch batch).2) ∧
    (m.validation_step F_bce batch batch_idx).1 = StepReturn.noneVal ∧
    (m.test_step F_bce batch batch_idx).1 = StepReturn.noneVal ∧
    m.configure_optimizers = { lr := m.lr, weight_decay := 1 / 100 } :=
  ⟨rfl, rfl, rfl, rfl, rfl⟩

/-- C10: the epoch-end hooks fail (torch.stack over an empty list raises,
modelled as none) when the corresponding buffer is empty; when the buffer is
non-empty, the hook logs exactly the unweighted arithmetic mean of the
per-batch losses collected during the epoch. -/
theorem epoch_end_mean_spec (m : LitVQAEncoder) :
    (m.val_output_list = [] → m.on_validation_epoch_end = none) ∧
    (m.test_output_list = [] → m.on_test_epoch_end = none) ∧
    (m.val_output_list ≠ [] →
      m.on_validation_epoch_end = some (m.logMetric MetricName.val_loss
        ((m.val_output_list.map StepOut.loss).sum / (m.val_output_list.length : ℚ)))) ∧
    (m.test_output_list ≠ [] →
      m.on_test_epoch_end = some (m.logMetric MetricName.test_loss
        ((m.test_output_list.map StepOut.loss).sum / (m.test_output_list.length : ℚ)))) := by
  refine ⟨?_, ?_, ?_, ?_⟩
  · intro h
    rw [LitVQAEncoder.on_validation_epoch_end, h]
    rfl
  · intro h
    rw [LitVQAEncoder.on_test_epoch_end, h]
    rfl
  · intro h
    rw [LitVQAEncoder.on_validation_epoch_end]
    rcases hl : m.val_output_list with _ | ⟨a, l⟩
    · exact absurd hl h
    · simp [stackMean, hl]
  · intro h
    rw [LitVQAEncoder.on_test_epoch_end]
    rcases hl : m.test_output_list with _ | ⟨a, l⟩
    · exact absurd hl h
    · simp [stackMean, hl]

/-- Witness for C10: the empty-buffer branch fires on the freshly initialized
wrapper and the mean branch fires after one validation step and one test
step. -/
theorem epoch_end_mean_spec_witness :
    (m0.val_output_list = [] ∧ m0.on_validation_epoch_end = none) ∧
    (m0.test_output_list = [] ∧ m0.on_test_epoch_end = none) ∧
    (mFullv.val_output_list ≠ [] ∧
      mFullv.on_validation_epoch_end = some (mFullv.logMetric MetricName.val_loss
        ((mFullv.val_output_list.map StepOut.loss).sum / (mFullv.val_output_list.length : ℚ)))) ∧
    (mFullt.test_output_list ≠ [] ∧
      mFullt.on_test_epoch_end = some (mFullt.logMetric MetricName.test_loss
        ((mFullt.test_output_list.map StepOut.loss).sum / (mFullt.test_output_list.length : ℚ)))) :=
  ⟨⟨rfl, (epoch_end_mean_spec m0).1 rfl⟩,
    ⟨rfl, (epoch_end_mean_spec m0).2.1 rfl⟩,
    ⟨by decide, (epoch_end_mean_spec mFullv).2.2.1 (by decide)⟩,
    ⟨by decide, (epoch_end_mean_spec mFullt).2.2.2 (by decide)⟩⟩

end ConfigILMSpec
